import Mathlib

/-!
Verification of the booklid-rust lid-angle library core against its design
specification.  The Rust sources under `src/` are shallowly embedded below:
`f32` values are modelled as exact rationals (`ℚ`), the per-backend sampling
loops become pure step functions, the stateful gate becomes explicit state
passing, and the fallible `init` arbitration returns `Except`.
-/

namespace Booklid

/-- `Source` from `src/types.rs`: closed enumeration of sample origins. -/
inductive Source where
  | HingeFeature
  | HingeHid
  | HingeIOKit
  | ALS
  | WinHinge
  | WinTilt
  | WinALS
  | LinuxTilt
  | LinuxALS
  | Mock
deriving DecidableEq, Repr

/-- `AngleSample` from `src/types.rs` (`Instant` abstracted to a tick count). -/
structure AngleSample where
  angle_deg : ℚ
  timestamp : ℕ
  source : Source
deriving DecidableEq, Repr

/-- `Error` from `src/types.rs` (payloads of `Io`/`Hid` abstracted to their
message strings, as only construction and comparison matter here). -/
inductive Error where
  | Backend : String → Error
  | Io : String → Error
  | Hid : String → Error
  | Other : String → Error
  | NoBackend : List Source → Error
deriving DecidableEq, Repr

/-- Rust `f32::clamp(lo, hi)`: `lo` below the band, `hi` above it, identity
inside. -/
def clampQ (x lo hi : ℚ) : ℚ := if x < lo then lo else if hi < x then hi else x

/-- Rust `f32::max` on the ℚ model. -/
def maxQ (a b : ℚ) : ℚ := if a < b then b else a

/-! ## Exponential smoothing filter

Every backend's sampling loop applies the same pattern to each raw value
(`backend_mock.rs` 41–50, `backend_hidapi.rs` 146–152, `backend_mac_als.rs`
66–72, `backend_win.rs`, `backend_linux.rs`):

    let a = (*alpha.lock().unwrap()).clamp(0.0, 1.0);
    let s = match smoothed { None => raw, Some(prev) => prev + a * (raw - prev) };
-/

/-- One tick of the EMA filter: `smoothed` is the running estimate cell,
`alpha` is the stored smoothing coefficient (clamped on read). -/
def emaStep (alpha : ℚ) (smoothed : Option ℚ) (raw : ℚ) : ℚ :=
  let a := clampQ alpha 0 1
  match smoothed with
  | none => raw
  | some prev => prev + a * (raw - prev)

/-- Feeding a whole list of raw values through the filter. -/
def emaRun (alpha : ℚ) (start : Option ℚ) (raws : List ℚ) : Option ℚ :=
  raws.foldl (fun st raw => some (emaStep alpha st raw)) start

/-! ## Rolling-variance confidence estimator

From `backend_mac_als.rs` 84–102 (identical loops in `backend_win.rs` and
`backend_linux.rs`): a `VecDeque` of capacity 64, `pop_front` once full,
`push_back` the new smoothed value, then
`stability = (1 / (1 + k * var)).clamp(0.0, 1.0)` over the buffer's
population variance.  The buffer front is the list head. -/

def CAP : ℕ := 64

/-- `if buf.len() == CAP { buf.pop_front(); } buf.push_back(s);` -/
def pushObs (buf : List ℚ) (s : ℚ) : List ℚ :=
  (if buf.length = CAP then buf.drop 1 else buf) ++ [s]

/-- `let mean = buf.iter().sum() / n;` -/
def meanQ (buf : List ℚ) : ℚ := buf.sum / (buf.length : ℚ)

/-- Population variance over the buffer. -/
def popVarQ (buf : List ℚ) : ℚ :=
  (buf.map (fun v => (v - meanQ buf) * (v - meanQ buf))).sum / (buf.length : ℚ)

/-- `(1.0 / (1.0 + k * var)).clamp(0.0, 1.0)` -/
def stability (k : ℚ) (buf : List ℚ) : ℚ :=
  clampQ (1 / (1 + k * popVarQ buf)) 0 1

/-- `k` used by the macOS ALS backend (`backend_mac_als.rs` line 101). -/
def macAlsK : ℚ := 20

/-- `k` used by the Windows hinge backend (`backend_win.rs` line 123). -/
def winHingeK : ℚ := 1/50

/-- `k` used by the Windows tilt backend (`backend_win.rs` line 192). -/
def winTiltK : ℚ := 1/20

/-- `k` used by the Windows ALS backend (`backend_win.rs` line 266). -/
def winAlsK : ℚ := 20

/-- `k` used by the Linux tilt backends (`backend_linux.rs` lines 80, 173). -/
def linuxTiltK : ℚ := 1/20

/-- `k` used by the Linux ALS backends (`backend_linux.rs` lines 125, 221). -/
def linuxAlsK : ℚ := 20

/-- `HidAngle::confidence` (`backend_hidapi.rs` 261–263) is the constant 1.0;
the HID backend has no variance buffer. -/
def hidConfidence : ℚ := 1

/-- `MockAngle::confidence` (`backend_mock.rs` 81–83) is the constant 1.0. -/
def mockConfidence : ℚ := 1

/-- Buffer contents after observing the constant `c` for `n` ticks starting
from the empty buffer the backends initialize with. -/
def feedConst (c : ℚ) : ℕ → List ℚ
  | 0 => []
  | n + 1 => pushObs (feedConst c n) c

/-! ## Confidence gate (`gating::Gated`, `src/lib.rs` 165–221) -/

/-- The wrapped inner device, reduced to what `Gated` reads from it: the
`latest` cell, the broadcast stream it hands out on `subscribe`, and the
confidence it reports. -/
structure Inner where
  cur : Option AngleSample
  stream : List AngleSample
  conf : ℚ
deriving DecidableEq, Repr

/-- `gating::Gated`: inner device plus the `live` flag and both thresholds. -/
structure Gated where
  inner : Inner
  live : Bool
  minC : ℚ
  dropC : ℚ
deriving DecidableEq, Repr

/-- `Gated::wrap`: `live: AtomicBool::new(false)`. -/
def Gated.wrap (inner : Inner) (minC dropC : ℚ) : Gated :=
  { inner := inner, live := false, minC := minC, dropC := dropC }

/-- `Gated::bump` (`src/lib.rs` 183–191). -/
def Gated.bump (g : Gated) : Gated :=
  let c := g.inner.conf
  if g.live = false ∧ g.minC ≤ c then { g with live := true }
  else if g.live = true ∧ c < g.dropC then { g with live := false }
  else g

/-- `Gated::latest` (`src/lib.rs` 195–202): bump first, then read the updated
flag.  Returns the post-call gate state together with the result. -/
def Gated.latest (g : Gated) : Gated × Option AngleSample :=
  let g' := g.bump
  (g', if g'.live then g'.inner.cur else none)

/-- `Gated::subscribe` (`src/lib.rs` 205–207): plain pass-through. -/
def Gated.subscribe (g : Gated) : List AngleSample := g.inner.stream

/-- The `min` every `Gated::wrap` call in `init` passes (0.70). -/
def initMin : ℚ := 7/10

/-- The `drop` every `Gated::wrap` call in `init` passes (0.65). -/
def initDrop : ℚ := 13/20

/-! ## Backend arbitration (`init`, `src/lib.rs` 237–449)

`init` is a straight line of feature-gated blocks; each block pushes its tag
onto `tried`, attempts its backend's `open`, and on success applies
`set_smoothing(cfg.smoothing_init)` and wraps in `Gated::wrap(dev, 0.70, 0.65)`.
The embedding keeps the compiled-in feature set (`Features`), the environment
the attempts run in (`Env`: the desktop guard and each open's outcome), and
walks the candidate blocks in source order. -/

/-- `InitConfig` (`src/lib.rs` 114–120); `timeout` abstracted to seconds. -/
structure InitConfig where
  hz : ℚ
  smoothing_init : ℚ
  allow_mock : Bool
  timeoutSecs : ℕ
  discovery : Bool
deriving DecidableEq, Repr

/-- `SetupReport` (`src/lib.rs` 133–140); the wall-clock `duration` field is
real time and is omitted from the embedding. -/
structure SetupReport where
  chosen : Option Source
  tried : List Source
  desktop_guard : Bool
  used_mock : Bool
deriving DecidableEq, Repr

/-- What `init` returns for the device on success, reduced to the facts the
wrapping records: the chosen backend, the smoothing alpha pushed into it, and
the two gate thresholds passed to `Gated::wrap`. -/
structure GatedClient where
  src : Source
  alpha : ℚ
  minC : ℚ
  dropC : ℚ
deriving DecidableEq, Repr

/-- Compile-time feature selection (`cfg!` flags in `src/lib.rs` 28–37);
`win_sensors` and `linux_iio` include their `target_os` conjuncts. -/
structure Features where
  mac_hid_feature : Bool
  mac_als : Bool
  mock : Bool
  win_sensors : Bool
  linux_iio : Bool
deriving DecidableEq, Repr

/-- `HAS_BACKENDS` (`src/lib.rs` 28–37). -/
def hasBackends (F : Features) : Bool :=
  F.mac_hid_feature || F.mac_als || F.mock || F.win_sensors || F.linux_iio

/-- Environment of one `init` run: the desktop guard and whether each
backend's `open` call would succeed. -/
structure Env where
  guard : Bool
  hidFeatureOpens : Bool
  hidDiscoveryOpens : Bool
  alsOpens : Bool
  mockOpens : Bool
  winHingeOpens : Bool
  winTiltOpens : Bool
  winAlsOpens : Bool
  linuxTiltOpens : Bool
  linuxAlsOpens : Bool
deriving DecidableEq, Repr

/-- One candidate block of `init`: the tag pushed onto `tried`, whether its
`open` succeeds, and the literal `used_mock` value its success branch writes. -/
structure Cand where
  tag : Source
  opens : Bool
  isMock : Bool
deriving DecidableEq, Repr

/-- Debug-format a `Source` the way `{tried:?}` renders it. -/
def sourceName : Source → String
  | .HingeFeature => "HingeFeature"
  | .HingeHid => "HingeHid"
  | .HingeIOKit => "HingeIOKit"
  | .ALS => "ALS"
  | .WinHinge => "WinHinge"
  | .WinTilt => "WinTilt"
  | .WinALS => "WinALS"
  | .LinuxTilt => "LinuxTilt"
  | .LinuxALS => "LinuxALS"
  | .Mock => "Mock"

/-- Debug-format of `Vec<Source>` as interpolated into the error message. -/
def renderSources (l : List Source) : String :=
  "[" ++ String.intercalate ", " (l.map sourceName) ++ "]"

/-- `format!("no suitable backend available; tried: {tried:?}")`
(`src/lib.rs` 279 and 447). -/
def exhaustMsg (tried : List Source) : String :=
  "no suitable backend available; tried: " ++ renderSources tried

/-- The message of the zero-compiled-backends error (`src/lib.rs` 239–241). -/
def noBackendsMsg : String :=
  "no backends enabled; enable one of: mac_hid_feature, mac_als, mock, win_sensors, linux_iio_proxy, linux_iio_sys"

/-- Walk the candidate blocks in source order: push the tag, attempt the
open; on success smooth, gate-wrap and report; when all blocks are exhausted,
fail with the `tried`-carrying message. -/
def walk (cfg : InitConfig) (guard : Bool) :
    List Cand → List Source → Except Error (GatedClient × SetupReport)
  | [], tried => .error (.Backend (exhaustMsg tried))
  | c :: rest, tried =>
    let tried' := tried ++ [c.tag]
    if c.opens then
      .ok ({ src := c.tag, alpha := cfg.smoothing_init, minC := initMin, dropC := initDrop },
           { chosen := some c.tag, tried := tried', desktop_guard := guard,
             used_mock := c.isMock })
    else walk cfg guard rest tried'

/-- Candidate blocks of the desktop-guard path (`src/lib.rs` 249–281): only
the ALS block runs, then the exhausted error. -/
def guardCands (F : Features) (env : Env) : List Cand :=
  if F.mac_als then [⟨Source.ALS, env.alsOpens, false⟩] else []

/-- Candidate blocks of the laptop path in their source order
(`src/lib.rs` 284–445). -/
def laptopCands (F : Features) (cfg : InitConfig) (env : Env) : List Cand :=
  (if F.mac_hid_feature then [⟨Source.HingeFeature, env.hidFeatureOpens, false⟩] else []) ++
  (if F.mac_hid_feature then [⟨Source.HingeHid, env.hidDiscoveryOpens, false⟩] else []) ++
  (if F.mac_als then [⟨Source.ALS, env.alsOpens, false⟩] else []) ++
  (if F.mock && cfg.allow_mock then [⟨Source.Mock, env.mockOpens, true⟩] else []) ++
  (if F.win_sensors then
    [⟨Source.WinHinge, env.winHingeOpens, false⟩,
     ⟨Source.WinTilt, env.winTiltOpens, false⟩,
     ⟨Source.WinALS, env.winAlsOpens, false⟩] else []) ++
  (if F.linux_iio then
    [⟨Source.LinuxTilt, env.linuxTiltOpens, false⟩,
     ⟨Source.LinuxALS, env.linuxAlsOpens, false⟩] else [])

/-- The candidate blocks a given run of `init` walks. -/
def initCands (F : Features) (cfg : InitConfig) (env : Env) : List Cand :=
  if env.guard then guardCands F env else laptopCands F cfg env

/-- `init` (`src/lib.rs` 237–449). -/
def init (F : Features) (cfg : InitConfig) (env : Env) :
    Except Error (GatedClient × SetupReport) :=
  if hasBackends F = false then .error (.Backend noBackendsMsg)
  else if env.guard then walk cfg true (guardCands F env) []
  else walk cfg false (laptopCands F cfg env) []

/-! ## Per-backend sampling-rate coercion

No open path validates the configured rate; each backend coerces it:
`backend_hidapi.rs` 132, `backend_mock.rs` 31, `backend_mac_als.rs` 39,
`backend_win.rs` 65/159/229, `backend_linux.rs` 62/105/152/200. -/

/-- `let target_hz = if hz.is_finite() && hz > 0.0 { hz } else { 60.0 };`
(every ℚ models a finite `f32`). -/
def hidTargetHz (hz : ℚ) : ℚ := if 0 < hz then hz else 60

/-- `let target_hz = hz.max(1.0);` in the mock backend. -/
def mockTargetHz (hz : ℚ) : ℚ := maxQ hz 1

/-- `let target_hz: f32 = hz.max(10.0);` in the macOS ALS backend. -/
def macAlsTargetHz (hz : ℚ) : ℚ := maxQ hz 10

/-- `hz.max(20.0)` in the Windows hinge and tilt backends. -/
def winHingeTargetHz (hz : ℚ) : ℚ := maxQ hz 20

/-- `hz.max(10.0)` in the Windows ALS backend. -/
def winAlsTargetHz (hz : ℚ) : ℚ := maxQ hz 10

/-- `hz.max(20.0)` in the Linux proxy tilt backend, `hz.max(60.0)` in the
Linux sysfs tilt backend. -/
def linuxProxyTiltTargetHz (hz : ℚ) : ℚ := maxQ hz 20

/-- `hz.max(60.0)` in the Linux sysfs tilt backend. -/
def linuxSysTiltTargetHz (hz : ℚ) : ℚ := maxQ hz 60

/-- `hz.max(10.0)` in both Linux ALS backends. -/
def linuxAlsTargetHz (hz : ℚ) : ℚ := maxQ hz 10

/-! ## Persistence (`src/persist.rs`)

The filesystem backing is a path (which `ProjectDirs` may fail to resolve)
and the state file's contents.  `serde_json` on `PersistedState` is modelled
by an explicit canonical encoding with a decoder that inverts it and rejects
everything else (mirroring `serde_json::from_str(..).unwrap_or_default()` on
exactly the strings `store` produces). -/

/-- `PersistedState` (`src/persist.rs` 6–9). -/
structure PersistedState where
  last_source : Option Source
deriving DecidableEq, Repr

/-- `PersistedState::default()`. -/
def defaultPersisted : PersistedState := { last_source := none }

/-- The persistence backing: whether `state_path()` resolves, and the
contents of `state.json` when present. -/
structure Backing where
  pathAvailable : Bool
  file : Option String
deriving DecidableEq, Repr

/-- serde's serialization of a unit enum variant. -/
def sourceJson (s : Source) : String := "\"" ++ sourceName s ++ "\""

/-- `serde_json::to_string_pretty` on a `PersistedState`. -/
def stateJson (st : PersistedState) : String :=
  match st.last_source with
  | none => "\x7b\n  \"last_source\": null\n\x7d"
  | some s => "\x7b\n  \"last_source\": " ++ sourceJson s ++ "\n\x7d"

/-- All ten source tags. -/
def allSources : List Source :=
  [.HingeFeature, .HingeHid, .HingeIOKit, .ALS, .WinHinge, .WinTilt, .WinALS,
   .LinuxTilt, .LinuxALS, .Mock]

/-- All eleven persisted states. -/
def allStates : List PersistedState :=
  { last_source := none } :: allSources.map (fun s => { last_source := some s })

/-- The decoder: succeeds exactly on canonical encodings. -/
def parseState (s : String) : Option PersistedState :=
  allStates.find? (fun st => stateJson st = s)

/-- `persist::load` (`src/persist.rs` 18–26): total, default on any problem. -/
def load (b : Backing) : PersistedState :=
  if b.pathAvailable = false then defaultPersisted
  else
    match b.file with
    | none => defaultPersisted
    | some s => (parseState s).getD defaultPersisted

/-- `persist::store` (`src/persist.rs` 28–38): `Ok(())` without writing when
no path resolves, otherwise write the serialization. -/
def store (st : PersistedState) (b : Backing) : Backing :=
  if b.pathAvailable = false then b else { b with file := some (stateJson st) }

/-- `persist::clear` (`src/persist.rs` 40–48). -/
def clear (b : Backing) : Backing :=
  if b.pathAvailable = false then b else { b with file := none }

/-! ## Spec-modelled candidate-order shaping (for comparison with `init`)

`Modelled from the spec:` the Backend Arbiter steps 2–4 of §4.5 — remove
`disable_sources`, move a still-listed persisted tag to the front when
enabled, then move each `prefer_sources` tag to the front in reverse
iteration order.  No corresponding code exists in `src/`; `InitConfig` has no
such fields and `init` never reads persisted state. -/

/-- Move `t` to the front of `l` when it occurs in `l`. -/
def moveToFront (l : List Source) (t : Source) : List Source :=
  if t ∈ l then t :: l.erase t else l

/-- `Modelled from the spec:` candidate-order shaping of §4.5 steps 2–4. -/
def specShapeOrder (baseline disable prefer : List Source)
    (persisted : Option Source) (usePersist : Bool) : List Source :=
  let l := baseline.filter (fun t => decide (t ∉ disable))
  let l := match persisted, usePersist with
    | some t, true => moveToFront l t
    | _, _ => l
  prefer.reverse.foldl moveToFront l

/-- `set_smoothing` of every backend stores the raw alpha into the shared
cell without validation (`backend_mock.rs` 77–79, `backend_hidapi.rs`
257–259, `backend_mac_als.rs` 126–128, and the Windows/Linux analogues). -/
def setSmoothing (_old alpha : ℚ) : ℚ := alpha

/-! ## Helper lemmas -/

theorem clampQ_mem01 (x : ℚ) : 0 ≤ clampQ x 0 1 ∧ clampQ x 0 1 ≤ 1 := by
  unfold clampQ; split_ifs <;> constructor <;> linarith

theorem clampQ_of_01 {x : ℚ} (h0 : 0 ≤ x) (h1 : x ≤ 1) : clampQ x 0 1 = x := by
  unfold clampQ; split_ifs <;> linarith

theorem clampQ_idem01 (x : ℚ) : clampQ (clampQ x 0 1) 0 1 = clampQ x 0 1 :=
  clampQ_of_01 (clampQ_mem01 x).1 (clampQ_mem01 x).2

theorem bump_inner (g : Gated) : (g.bump).inner = g.inner := by
  unfold Gated.bump; dsimp only; split_ifs <;> rfl

theorem bump_minC (g : Gated) : (g.bump).minC = g.minC := by
  unfold Gated.bump; dsimp only; split_ifs <;> rfl

theorem bump_dropC (g : Gated) : (g.bump).dropC = g.dropC := by
  unfold Gated.bump; dsimp only; split_ifs <;> rfl

theorem bump_live_of_dormant (g : Gated) (hg : g.live = false) :
    ((g.bump).live = true ↔ g.minC ≤ g.inner.conf) := by
  unfold Gated.bump; dsimp only; split_ifs with h1 h2 <;> simp_all

theorem bump_dormant_of_live (g : Gated) (hg : g.live = true) :
    ((g.bump).live = false ↔ g.inner.conf < g.dropC) := by
  unfold Gated.bump; dsimp only; split_ifs with h1 h2 <;> simp_all

theorem walk_eq_error (cfg : InitConfig) (g : Bool) :
    ∀ (cands : List Cand) (tried : List Source) (e : Error),
      walk cfg g cands tried = .error e →
      e = .Backend (exhaustMsg (tried ++ cands.map Cand.tag)) ∧
      ∀ c ∈ cands, c.opens = false := by
  intro cands
  induction cands with
  | nil =>
    intro tried e h
    unfold walk at h
    simp_all
  | cons c rest ih =>
    intro tried e h
    unfold walk at h
    dsimp only at h
    cases hc : c.opens with
    | true => rw [hc] at h; simp at h
    | false =>
      rw [hc] at h
      simp only [Bool.false_eq_true, if_false] at h
      obtain ⟨he, hall⟩ := ih (tried ++ [c.tag]) e h
      refine ⟨by simpa [List.append_assoc] using he, ?_⟩
      intro c' hc'
      rcases List.mem_cons.1 hc' with rfl | hmem
      · exact hc
      · exact hall c' hmem

theorem walk_eq_ok (cfg : InitConfig) (g : Bool) :
    ∀ (cands : List Cand) (tried : List Source) (dev : GatedClient) (rep : SetupReport),
      walk cfg g cands tried = .ok (dev, rep) →
      ∃ pre c post, cands = pre ++ c :: post ∧ (∀ p ∈ pre, p.opens = false) ∧
        c.opens = true ∧
        dev = ⟨c.tag, cfg.smoothing_init, initMin, initDrop⟩ ∧
        rep = ⟨some c.tag, tried ++ pre.map Cand.tag ++ [c.tag], g, c.isMock⟩ := by
  intro cands
  induction cands with
  | nil =>
    intro tried dev rep h
    unfold walk at h
    simp at h
  | cons c rest ih =>
    intro tried dev rep h
    unfold walk at h
    dsimp only at h
    cases hc : c.opens with
    | true =>
      rw [hc] at h
      simp only [if_true] at h
      obtain ⟨h1, h2⟩ := Prod.mk.injEq .. ▸ Except.ok.injEq .. ▸ h
      refine ⟨[], c, rest, rfl, by simp, hc, ?_, ?_⟩
      · exact h1.symm
      · rw [← h2]; simp
    | false =>
      rw [hc] at h
      simp only [Bool.false_eq_true, if_false] at h
      obtain ⟨pre, c', post, hsplit, hpre, hopen, hdev, hrep⟩ := ih (tried ++ [c.tag]) dev rep h
      refine ⟨c :: pre, c', post, by rw [hsplit]; simp, ?_, hopen, hdev, ?_⟩
      · intro p hp
        rcases List.mem_cons.1 hp with rfl | hmem
        · exact hc
        · exact hpre p hmem
      · rw [hrep]; simp

theorem init_ok_walk (F : Features) (cfg : InitConfig) (env : Env)
    (dev : GatedClient) (rep : SetupReport) (h : init F cfg env = .ok (dev, rep)) :
    walk cfg env.guard (initCands F cfg env) [] = .ok (dev, rep) := by
  unfold init at h
  unfold initCands
  cases hb : hasBackends F with
  | false => rw [hb] at h; simp at h
  | true =>
    rw [hb] at h
    simp only [Bool.true_eq_false, if_false] at h
    cases hg : env.guard with
    | true => rw [hg] at h; simpa [hg] using h
    | false => rw [hg] at h; simpa [hg] using h

theorem init_ok_gate_params (F : Features) (cfg : InitConfig) (env : Env)
    (dev : GatedClient) (rep : SetupReport) (h : init F cfg env = .ok (dev, rep)) :
    dev.minC = initMin ∧ dev.dropC = initDrop := by
  obtain ⟨pre, c, post, _, _, _, hdev, _⟩ :=
    walk_eq_ok cfg env.guard (initCands F cfg env) [] dev rep (init_ok_walk F cfg env dev rep h)
  rw [hdev]
  exact ⟨rfl, rfl⟩

/-! ## Claim theorems -/

/-- Claim C1: the liveness gate wrapping every selected backend starts
`Dormant` (`live = false`); on every `latest()` call it re-evaluates, going
`Dormant → Live` exactly when `confidence() >= min` and `Live → Dormant`
exactly when `confidence() < drop`; `latest()` returns `None` while dormant
and the underlying current sample while live; and every `Gated::wrap` in
`init` uses `min = 0.70` and `drop = 0.65 = clamp(min - 0.05, 0, 1)`. -/
theorem C1_liveness_gate :
    (∀ (inner : Inner) (m d : ℚ), (Gated.wrap inner m d).live = false) ∧
    (∀ g : Gated, g.live = false → ((g.bump).live = true ↔ g.minC ≤ g.inner.conf)) ∧
    (∀ g : Gated, g.live = true → ((g.bump).live = false ↔ g.inner.conf < g.dropC)) ∧
    (∀ g : Gated, g.latest = (g.bump, if (g.bump).live = true then g.inner.cur else none)) ∧
    (∀ g : Gated, (g.bump).live = false → (g.latest).2 = none) ∧
    (∀ g : Gated, (g.bump).live = true → (g.latest).2 = g.inner.cur) ∧
    initMin = 7/10 ∧ initDrop = clampQ (initMin - 1/20) 0 1 ∧
    (∀ (F : Features) (cfg : InitConfig) (env : Env) (dev : GatedClient) (rep : SetupReport),
        init F cfg env = .ok (dev, rep) → dev.minC = initMin ∧ dev.dropC = initDrop) := by
  refine ⟨fun _ _ _ => rfl, bump_live_of_dormant, bump_dormant_of_live, ?_, ?_, ?_, rfl,
    by norm_num [initMin, initDrop, clampQ], ?_⟩
  · intro g
    unfold Gated.latest
    dsimp only
    rw [bump_inner]
  · intro g h
    unfold Gated.latest
    dsimp only
    simp [h]
  · intro g h
    unfold Gated.latest
    dsimp only
    rw [bump_inner]
    simp [h]
  · intro F cfg env dev rep h
    exact init_ok_gate_params F cfg env dev rep h

/-- Witness for C1 at a concrete dormant gate whose confidence 0.75 crosses
the 0.70 threshold. -/
theorem C1_liveness_gate_witness :
    ((Gated.bump ⟨⟨none, [], 3/4⟩, false, initMin, initDrop⟩).live = true ↔
      initMin ≤ (3 : ℚ)/4) :=
  C1_liveness_gate.2.1 ⟨⟨none, [], 3/4⟩, false, initMin, initDrop⟩ rfl

/-- Claim C2: the first filter update returns the raw value unchanged; every
subsequent update with in-range alpha returns `e + alpha * (raw - e)`;
`alpha = 1` passes raw through and `alpha = 0` freezes the estimate at the
first value. -/
theorem C2_smoothing_filter :
    (∀ alpha raw : ℚ, emaStep alpha none raw = raw) ∧
    (∀ alpha e raw : ℚ, 0 ≤ alpha → alpha ≤ 1 →
        emaStep alpha (some e) raw = e + alpha * (raw - e)) ∧
    (∀ e raw : ℚ, emaStep 1 (some e) raw = raw) ∧
    (∀ e raw : ℚ, emaStep 0 (some e) raw = e) ∧
    (∀ (v : ℚ) (raws : List ℚ), emaRun 0 (some v) raws = some v) := by
  refine ⟨fun _ _ => rfl, ?_, ?_, ?_, ?_⟩
  · intro alpha e raw h0 h1
    unfold emaStep
    rw [clampQ_of_01 h0 h1]
  · intro e raw
    unfold emaStep
    rw [clampQ_of_01 (by norm_num) (by norm_num)]
    ring
  · intro e raw
    unfold emaStep
    rw [clampQ_of_01 (by norm_num) (by norm_num)]
    ring
  · intro v raws
    induction raws with
    | nil => rfl
    | cons r rest ih =>
      unfold emaRun at ih ⊢
      simp only [List.foldl_cons]
      have h : emaStep 0 (some v) r = v := by
        unfold emaStep
        rw [clampQ_of_01 (by norm_num) (by norm_num)]
        ring
      rw [h]
      exact ih

/-- Witness for C2 at `alpha = 1/2`, `e = 10`, `raw = 20`. -/
theorem C2_smoothing_filter_witness :
    emaStep (1/2) (some 10) 20 = 10 + (1 : ℚ)/2 * (20 - 10) :=
  C2_smoothing_filter.2.1 (1/2) 10 20 (by norm_num) (by norm_num)

/-- Claim C3: `subscribe()` is the inner backend's stream unchanged in every
gate state — it neither bumps the gate nor filters — while the `latest()`
poll path of the same dormant gate is gated to `None`. -/
theorem C3_subscribe_ungated :
    (∀ (inner : Inner) (live : Bool) (m d : ℚ),
        Gated.subscribe ⟨inner, live, m, d⟩ = inner.stream) ∧
    (∀ g : Gated, ((g.latest).1).subscribe = g.subscribe) ∧
    (∀ (inner : Inner) (m d : ℚ), inner.conf < m →
        (Gated.latest (Gated.wrap inner m d)).2 = none ∧
        Gated.subscribe (Gated.wrap inner m d) = inner.stream) := by
  refine ⟨fun _ _ _ _ => rfl, ?_, ?_⟩
  · intro g
    unfold Gated.latest Gated.subscribe
    rw [bump_inner]
  · intro inner m d h
    refine ⟨?_, rfl⟩
    unfold Gated.latest
    have hb : ((Gated.wrap inner m d).bump).live = false := by
      rw [Bool.eq_false_iff]
      intro hc
      have := (bump_live_of_dormant (Gated.wrap inner m d) rfl).1 hc
      exact absurd this (by simpa [Gated.wrap] using not_le.2 h)
    simp [hb]

/-- Witness for C3 at a dormant gate with a present inner sample: the poll
path yields `None` while the stream passes through whole. -/
theorem C3_subscribe_ungated_witness :
    (Gated.latest (Gated.wrap ⟨some ⟨95, 0, Source.Mock⟩, [⟨95, 0, Source.Mock⟩], 0⟩
        initMin initDrop)).2 = none ∧
    Gated.subscribe (Gated.wrap ⟨some ⟨95, 0, Source.Mock⟩, [⟨95, 0, Source.Mock⟩], 0⟩
        initMin initDrop) = [⟨95, 0, Source.Mock⟩] :=
  C3_subscribe_ungated.2.2 ⟨some ⟨95, 0, Source.Mock⟩, [⟨95, 0, Source.Mock⟩], 0⟩
    initMin initDrop (by norm_num [initMin])

/-- Claim C10: `set_smoothing` stores any alpha without error; each tick
applies `clamp(alpha, 0, 1)`, so an out-of-range alpha behaves exactly as
its clamped value, the applied coefficient stays in `[0, 1]`, and the filter
output always stays between the previous estimate and the raw input (no
divergence). -/
theorem C10_set_smoothing_clamped :
    (∀ old alpha : ℚ, setSmoothing old alpha = alpha) ∧
    (∀ (alpha : ℚ) (st : Option ℚ) (raw : ℚ),
        emaStep alpha st raw = emaStep (clampQ alpha 0 1) st raw) ∧
    (∀ alpha : ℚ, 0 ≤ clampQ alpha 0 1 ∧ clampQ alpha 0 1 ≤ 1) ∧
    (∀ alpha e raw : ℚ,
        min e raw ≤ emaStep alpha (some e) raw ∧ emaStep alpha (some e) raw ≤ max e raw) := by
  refine ⟨fun _ _ => rfl, ?_, clampQ_mem01, ?_⟩
  · intro alpha st raw
    unfold emaStep
    rw [clampQ_idem01]
  · intro alpha e raw
    have h0 := (clampQ_mem01 alpha).1
    have h1 := (clampQ_mem01 alpha).2
    unfold emaStep
    dsimp only
    rcases le_total e raw with hc | hc <;>
      constructor <;> simp only [min_def, max_def] <;> split_ifs <;> nlinarith

theorem exhaustMsg_ne_noBackendsMsg (tried : List Source) :
    exhaustMsg tried ≠ noBackendsMsg := by
  intro h
  have h4 : (exhaustMsg tried).data.take 4 = noBackendsMsg.data.take 4 := by rw [h]
  unfold exhaustMsg at h4
  rw [String.data_append, List.take_append_of_le_length (by decide)] at h4
  exact absurd h4 (by decide)

theorem init_error_spec (F : Features) (cfg : InitConfig) (env : Env) (e : Error)
    (hb : hasBackends F = true) (h : init F cfg env = .error e) :
    e = .Backend (exhaustMsg ((initCands F cfg env).map Cand.tag)) ∧
    ∀ c ∈ initCands F cfg env, c.opens = false := by
  unfold init at h
  rw [hb] at h
  simp only [Bool.true_eq_false, if_false] at h
  unfold initCands
  cases hg : env.guard with
  | true =>
    rw [hg] at h
    simp only [if_true] at h
    simpa [hg] using walk_eq_error cfg true (guardCands F env) [] e h
  | false =>
    rw [hg] at h
    simp only [Bool.false_eq_true, if_false] at h
    simpa [hg] using walk_eq_error cfg false (laptopCands F cfg env) [] e h

theorem initCands_isMock (F : Features) (cfg : InitConfig) (env : Env) :
    ∀ c ∈ initCands F cfg env, (c.isMock = true ↔ c.tag = Source.Mock) := by
  unfold initCands guardCands laptopCands
  split_ifs <;> intro c hc <;> fin_cases hc <;> simp

/-- Claim C5: `init` with at least one compiled-in backend fails only by
exhausting every candidate, carrying the full ordered list of attempted tags
in its error message; a build with zero compiled-in backends fails
immediately with the distinct no-backends message, distinguishable from the
exhausted-candidates error. -/
theorem C5_arbitration_failure_modes :
    (∀ (F : Features) (cfg : InitConfig) (env : Env),
        hasBackends F = false → init F cfg env = .error (.Backend noBackendsMsg)) ∧
    (∀ (F : Features) (cfg : InitConfig) (env : Env) (e : Error),
        hasBackends F = true → init F cfg env = .error e →
        e = .Backend (exhaustMsg ((initCands F cfg env).map Cand.tag)) ∧
        ∀ c ∈ initCands F cfg env, c.opens = false) ∧
    (∀ tried : List Source,
        (Error.Backend (exhaustMsg tried) : Error) ≠ .Backend noBackendsMsg) := by
  refine ⟨?_, ?_, ?_⟩
  · intro F cfg env h
    unfold init
    rw [h]
    rfl
  · intro F cfg env e hb h
    exact init_error_spec F cfg env e hb h
  · intro tried h
    exact exhaustMsg_ne_noBackendsMsg tried (by injection h)

/-- Witness for C5: a featureless build fails immediately with the distinct
no-backends error. -/
theorem C5_arbitration_failure_modes_witness :
    init ⟨false, false, false, false, false⟩ ⟨60, 1/4, false, 3, true⟩
        ⟨false, false, false, false, false, false, false, false, false, false⟩
      = .error (.Backend noBackendsMsg) :=
  C5_arbitration_failure_modes.1 ⟨false, false, false, false, false⟩
    ⟨60, 1/4, false, 3, true⟩
    ⟨false, false, false, false, false, false, false, false, false, false⟩ rfl

/-- Claim C9 (implicit invariant): every successful `init` reports
`chosen = Some(tag)` with `tag` the last element of `tried`, every earlier
element of `tried` being a candidate whose open failed, and `used_mock` true
exactly when the chosen tag is `Mock`. -/
theorem C9_report_invariant (F : Features) (cfg : InitConfig) (env : Env)
    (dev : GatedClient) (rep : SetupReport) (h : init F cfg env = .ok (dev, rep)) :
    ∃ t, rep.chosen = some t ∧ rep.tried.getLast? = some t ∧
      (rep.used_mock = true ↔ t = Source.Mock) ∧
      ∃ pre, rep.tried = pre ++ [t] ∧
        ∀ s ∈ pre, ∃ c ∈ initCands F cfg env, c.tag = s ∧ c.opens = false := by
  obtain ⟨pre, c, post, hsplit, hpre, hopen, hdev, hrep⟩ :=
    walk_eq_ok cfg env.guard (initCands F cfg env) [] dev rep (init_ok_walk F cfg env dev rep h)
  have hc_mem : c ∈ initCands F cfg env := by
    rw [hsplit]
    exact List.mem_append_right _ (List.mem_cons_self c post)
  refine ⟨c.tag, by rw [hrep], ?_, ?_, List.map Cand.tag pre, by rw [hrep]; simp, ?_⟩
  · rw [hrep]
    exact List.getLast?_concat _
  · rw [hrep]
    exact initCands_isMock F cfg env c hc_mem
  · intro s hs
    obtain ⟨p, hp, rfl⟩ := List.mem_map.1 hs
    refine ⟨p, ?_, rfl, hpre p hp⟩
    rw [hsplit]
    exact List.mem_append_left _ hp

/-- Witness for C9 at a concrete successful run: the reported `chosen` tag
coincides with the last attempted tag. -/
theorem C9_report_invariant_witness :
    (⟨some Source.HingeFeature, [Source.HingeFeature], false, false⟩ : SetupReport).tried.getLast?
      = (⟨some Source.HingeFeature, [Source.HingeFeature], false, false⟩ : SetupReport).chosen := by
  obtain ⟨t, h1, h2, _, _⟩ :=
    C9_report_invariant ⟨true, true, true, false, false⟩ ⟨60, 1/4, false, 3, true⟩
      ⟨false, true, false, false, false, false, false, false, false, false⟩
      ⟨Source.HingeFeature, 1/4, initMin, initDrop⟩
      ⟨some Source.HingeFeature, [Source.HingeFeature], false, false⟩ rfl
  rw [h1, h2]

/-- Counterexample for C4: the spec's shaping algorithm on candidates
`[HingeFeature, HingeHid, ALS]` with `disable = ` the set holding `HingeHid`,
`prefer = [ALS]` and persisted `HingeFeature` would attempt `[ALS,
HingeFeature]`, but the code's `init` on the all-features macOS build
attempts the fixed order `[HingeFeature, HingeHid, ALS, Mock]` — `InitConfig`
has no field that could express the shaped order. -/
theorem C4_counterexample :
    specShapeOrder [Source.HingeFeature, Source.HingeHid, Source.ALS]
        [Source.HingeHid] [Source.ALS] (some Source.HingeFeature) true
      = [Source.ALS, Source.HingeFeature] ∧
    init ⟨true, true, true, false, false⟩ ⟨60, 1/4, true, 3, true⟩
        ⟨false, false, false, false, false, false, false, false, false, false⟩
      = .error (.Backend
          (exhaustMsg [Source.HingeFeature, Source.HingeHid, Source.ALS, Source.Mock])) ∧
    ([Source.ALS, Source.HingeFeature] : List Source)
      ≠ [Source.HingeFeature, Source.HingeHid, Source.ALS, Source.Mock] :=
  ⟨by decide, rfl, by decide⟩

/-- Claim C4 as amended: `init` attempts candidates in a fixed order that
depends only on the compiled features, the desktop guard, and `allow_mock`
(macOS all-features laptop path: HingeFeature, HingeHid, ALS, then Mock only
if `allow_mock`; guard path: ALS only); no disable/prefer/persisted shaping
exists in the code.  The spec's shaping algorithm, modelled separately,
does yield `[C, A]` on the spec's quoted example. -/
theorem C4_amended_fixed_order :
    (∀ (F : Features) (cfg₁ cfg₂ : InitConfig) (env₁ env₂ : Env),
        cfg₁.allow_mock = cfg₂.allow_mock →
        (laptopCands F cfg₁ env₁).map Cand.tag = (laptopCands F cfg₂ env₂).map Cand.tag) ∧
    (∀ (cfg : InitConfig) (env : Env),
        (laptopCands ⟨true, true, true, false, false⟩ cfg env).map Cand.tag
          = [Source.HingeFeature, Source.HingeHid, Source.ALS]
            ++ (if cfg.allow_mock then [Source.Mock] else [])) ∧
    (∀ (F : Features) (env : Env),
        (guardCands F env).map Cand.tag = if F.mac_als then [Source.ALS] else []) ∧
    specShapeOrder [Source.HingeFeature, Source.HingeHid, Source.ALS]
        [Source.HingeHid] [Source.ALS] (some Source.HingeFeature) true
      = [Source.ALS, Source.HingeFeature] := by
  refine ⟨?_, ?_, ?_, by decide⟩
  · intro F cfg₁ cfg₂ env₁ env₂ h
    simp only [laptopCands, List.map_append, apply_ite (List.map Cand.tag),
      List.map_cons, List.map_nil, h]
  · intro cfg env
    cases h : cfg.allow_mock <;> simp [laptopCands, h]
  · intro F env
    unfold guardCands
    split_ifs <;> simp

/-- Witness for C4 as amended: two configurations differing in everything but
`allow_mock` produce the same attempt order. -/
theorem C4_amended_fixed_order_witness :
    (laptopCands ⟨true, true, true, false, false⟩ ⟨60, 1/4, true, 3, true⟩
        ⟨false, true, true, true, true, false, false, false, false, false⟩).map Cand.tag
      = (laptopCands ⟨true, true, true, false, false⟩ ⟨120, 9/10, true, 1, false⟩
        ⟨false, false, false, false, false, false, false, false, false, false⟩).map Cand.tag :=
  C4_amended_fixed_order.1 ⟨true, true, true, false, false⟩
    ⟨60, 1/4, true, 3, true⟩ ⟨120, 9/10, true, 1, false⟩
    ⟨false, true, true, true, true, false, false, false, false, false⟩
    ⟨false, false, false, false, false, false, false, false, false, false⟩ rfl

theorem drop_one_replicate (m : ℕ) (c : ℚ) :
    (List.replicate m c).drop 1 = List.replicate (m - 1) c := by
  cases m with
  | zero => rfl
  | succ k => rw [List.replicate_succ]; rfl

theorem feedConst_eq_replicate (c : ℚ) :
    ∀ n, feedConst c n = List.replicate (min n CAP) c := by
  intro n
  induction n with
  | zero => rfl
  | succ n ih =>
    unfold feedConst pushObs
    rw [ih, List.length_replicate]
    rcases le_or_lt CAP n with h | h
    · rw [min_eq_right h, if_pos rfl, min_eq_right (by omega : CAP ≤ n + 1)]
      calc (List.replicate CAP c).drop 1 ++ [c]
          = List.replicate (CAP - 1) c ++ [c] := by rw [drop_one_replicate]
        _ = List.replicate (CAP - 1 + 1) c := (List.replicate_succ' _ c).symm
        _ = List.replicate CAP c := by norm_num [CAP]
    · rw [min_eq_left (by omega : n ≤ CAP), if_neg (by omega : ¬ n = CAP),
        min_eq_left (by omega : n + 1 ≤ CAP)]
      exact (List.replicate_succ' n c).symm

theorem meanQ_replicate (n : ℕ) (c : ℚ) (hn : n ≠ 0) :
    meanQ (List.replicate n c) = c := by
  unfold meanQ
  rw [List.sum_replicate, List.length_replicate, nsmul_eq_mul]
  have h : (n : ℚ) ≠ 0 := Nat.cast_ne_zero.2 hn
  rw [mul_comm, mul_div_assoc, div_self h, mul_one]

theorem popVarQ_replicate (n : ℕ) (c : ℚ) (hn : n ≠ 0) :
    popVarQ (List.replicate n c) = 0 := by
  unfold popVarQ
  simp only [meanQ_replicate n c hn, List.map_replicate, sub_self, mul_zero,
    List.sum_replicate, smul_zero, zero_div]

theorem stability_replicate (k : ℚ) (n : ℕ) (c : ℚ) (hn : n ≠ 0) :
    stability k (List.replicate n c) = 1 := by
  unfold stability
  rw [popVarQ_replicate n c hn]
  norm_num [clampQ]

/-- Counterexample for C6: the HID backend — a degree-range source whose
`confidence` the claim covers — reports the constant 1.0 with no estimator,
while the claimed formula at either end of the claimed k-range 0.02–0.05
gives a value strictly below 1 on the two-observation buffer `[0, 100]`;
the mock backend likewise reports the constant 1.0. -/
theorem C6_counterexample :
    hidConfidence = 1 ∧ mockConfidence = 1 ∧
    stability (1/50) [0, 100] < 1 ∧ stability (1/20) [0, 100] < 1 := by
  refine ⟨rfl, rfl, ?_, ?_⟩ <;> norm_num [stability, popVarQ, meanQ, clampQ]

/-- Claim C6 as amended: the estimators of the ALS/Windows/Linux backends
keep a bounded buffer of at most the last 64 smoothed values, evicting the
oldest once full, and return `stability = 1 / (1 + k * variance)` clamped to
`[0, 1]`, with `k = 20` for the normalized sources and `k ∈ 0.02..0.05` for
the degree-range sources that have an estimator; feeding a constant for at
least 64 observations yields stability exactly 1.0.  The HID and Mock
backends have no estimator and report the constant confidence 1.0. -/
theorem C6_amended_estimator :
    (∀ (buf : List ℚ) (s : ℚ), buf.length ≤ CAP → (pushObs buf s).length ≤ CAP) ∧
    (∀ (buf : List ℚ) (s : ℚ), buf.length = CAP → pushObs buf s = buf.drop 1 ++ [s]) ∧
    (∀ (k : ℚ) (buf : List ℚ), stability k buf = clampQ (1 / (1 + k * popVarQ buf)) 0 1) ∧
    (∀ (k : ℚ) (buf : List ℚ), 0 ≤ stability k buf ∧ stability k buf ≤ 1) ∧
    (macAlsK = 20 ∧ winAlsK = 20 ∧ linuxAlsK = 20 ∧
      winHingeK = 1/50 ∧ winTiltK = 1/20 ∧ linuxTiltK = 1/20) ∧
    (∀ (k c : ℚ) (n : ℕ), CAP ≤ n →
        feedConst c n = List.replicate CAP c ∧ stability k (feedConst c n) = 1) ∧
    hidConfidence = 1 ∧ mockConfidence = 1 := by
  refine ⟨?_, ?_, fun _ _ => rfl, fun k buf => clampQ_mem01 _,
    ⟨rfl, rfl, rfl, rfl, rfl, rfl⟩, ?_, rfl, rfl⟩
  · intro buf s h
    unfold pushObs
    simp only [CAP] at h ⊢
    split_ifs with hl <;>
      simp only [List.length_append, List.length_drop, List.length_cons,
        List.length_nil] <;> omega
  · intro buf s h
    unfold pushObs
    rw [if_pos h]
  · intro k c n h
    have hf : feedConst c n = List.replicate CAP c := by
      rw [feedConst_eq_replicate, min_eq_right h]
    exact ⟨hf, by rw [hf]; exact stability_replicate k CAP c (by norm_num [CAP])⟩

/-- Witness for C6 as amended: 100 constant observations leave a full buffer
of 64 copies and stability exactly 1. -/
theorem C6_amended_estimator_witness :
    feedConst 5 100 = List.replicate CAP 5 ∧ stability 20 (feedConst 5 100) = 1 :=
  C6_amended_estimator.2.2.2.2.2.1 20 5 100 (by norm_num [CAP])

theorem walk_smoothing_congr (cfg₁ cfg₂ : InitConfig) (g : Bool)
    (h : cfg₁.smoothing_init = cfg₂.smoothing_init) :
    ∀ (cands : List Cand) (tried : List Source),
      walk cfg₁ g cands tried = walk cfg₂ g cands tried := by
  intro cands
  induction cands with
  | nil => intro tried; rfl
  | cons c rest ih =>
    intro tried
    unfold walk
    dsimp only
    rw [h]
    split_ifs with hc
    · rfl
    · exact ih (tried ++ [c.tag])

theorem init_cfg_congr (F : Features) (cfg₁ cfg₂ : InitConfig) (env : Env)
    (hs : cfg₁.smoothing_init = cfg₂.smoothing_init)
    (ha : cfg₁.allow_mock = cfg₂.allow_mock) :
    init F cfg₁ env = init F cfg₂ env := by
  unfold init
  have hc : laptopCands F cfg₁ env = laptopCands F cfg₂ env := by
    unfold laptopCands
    rw [ha]
  rw [hc, walk_smoothing_congr cfg₁ cfg₂ true hs, walk_smoothing_congr cfg₁ cfg₂ false hs]

/-- Counterexample for C7: `init` at `rate_hz = 0` with the first backend
available succeeds rather than failing with a configuration error — no rate
validation exists anywhere on the open path; the backends silently coerce
the rate instead. -/
theorem C7_counterexample :
    init ⟨true, true, true, false, false⟩ ⟨0, 1/4, false, 3, true⟩
        ⟨false, true, false, false, false, false, false, false, false, false⟩
      = .ok (⟨Source.HingeFeature, 1/4, 7/10, 13/20⟩,
             ⟨some Source.HingeFeature, [Source.HingeFeature], false, false⟩) ∧
    hidTargetHz 0 = 60 ∧ mockTargetHz 0 = 1 ∧ macAlsTargetHz 0 = 10 := by
  refine ⟨rfl, ?_, ?_, ?_⟩ <;> norm_num [hidTargetHz, mockTargetHz, macAlsTargetHz, maxQ]

/-- Claim C7 as amended: there is no rate validation — `init` ignores `hz`
entirely (its result is unchanged under any replacement of `hz`), the error
type has no configuration variant, and each backend coerces a non-positive
rate to its own positive floor (HID 60, mock 1, ALS 10, Windows hinge/tilt
20, Windows ALS 10, Linux proxy tilt 20, Linux sysfs tilt 60, Linux ALS 10),
so the effective rate is always positive. -/
theorem C7_amended_rate_coercion :
    (∀ (F : Features) (cfg : InitConfig) (env : Env) (q : ℚ),
        init F { cfg with hz := q } env = init F cfg env) ∧
    (∀ hz : ℚ, hz ≤ 0 →
        hidTargetHz hz = 60 ∧ mockTargetHz hz = 1 ∧ macAlsTargetHz hz = 10 ∧
        winHingeTargetHz hz = 20 ∧ winAlsTargetHz hz = 10 ∧
        linuxProxyTiltTargetHz hz = 20 ∧ linuxSysTiltTargetHz hz = 60 ∧
        linuxAlsTargetHz hz = 10) ∧
    (∀ hz : ℚ, 0 < hidTargetHz hz ∧ 0 < mockTargetHz hz ∧ 0 < macAlsTargetHz hz ∧
        0 < winHingeTargetHz hz ∧ 0 < winAlsTargetHz hz ∧
        0 < linuxProxyTiltTargetHz hz ∧ 0 < linuxSysTiltTargetHz hz ∧
        0 < linuxAlsTargetHz hz) := by
  refine ⟨fun F cfg env q => init_cfg_congr F _ cfg env rfl rfl, ?_, ?_⟩
  · intro hz h
    refine ⟨by simp only [hidTargetHz]; split_ifs <;> linarith,
      by simp only [mockTargetHz, maxQ]; split_ifs <;> linarith,
      by simp only [macAlsTargetHz, maxQ]; split_ifs <;> linarith,
      by simp only [winHingeTargetHz, maxQ]; split_ifs <;> linarith,
      by simp only [winAlsTargetHz, maxQ]; split_ifs <;> linarith,
      by simp only [linuxProxyTiltTargetHz, maxQ]; split_ifs <;> linarith,
      by simp only [linuxSysTiltTargetHz, maxQ]; split_ifs <;> linarith,
      by simp only [linuxAlsTargetHz, maxQ]; split_ifs <;> linarith⟩
  · intro hz
    refine ⟨by simp only [hidTargetHz]; split_ifs <;> linarith,
      by simp only [mockTargetHz, maxQ]; split_ifs <;> linarith,
      by simp only [macAlsTargetHz, maxQ]; split_ifs <;> linarith,
      by simp only [winHingeTargetHz, maxQ]; split_ifs <;> linarith,
      by simp only [winAlsTargetHz, maxQ]; split_ifs <;> linarith,
      by simp only [linuxProxyTiltTargetHz, maxQ]; split_ifs <;> linarith,
      by simp only [linuxSysTiltTargetHz, maxQ]; split_ifs <;> linarith,
      by simp only [linuxAlsTargetHz, maxQ]; split_ifs <;> linarith⟩

/-- Witness for C7 as amended at the non-positive rate `-1`. -/
theorem C7_amended_rate_coercion_witness :
    hidTargetHz (-1) = 60 ∧ mockTargetHz (-1) = 1 ∧ macAlsTargetHz (-1) = 10 ∧
    winHingeTargetHz (-1) = 20 ∧ winAlsTargetHz (-1) = 10 ∧
    linuxProxyTiltTargetHz (-1) = 20 ∧ linuxSysTiltTargetHz (-1) = 60 ∧
    linuxAlsTargetHz (-1) = 10 :=
  C7_amended_rate_coercion.2.1 (-1) (by norm_num)

theorem parseState_stateJson (st : PersistedState) :
    parseState (stateJson st) = some st := by
  obtain ⟨ls⟩ := st
  cases ls with
  | none => rfl
  | some s => cases s <;> rfl

/-- Claim C8: storing then loading over the same available backing returns
the stored state; clearing then loading returns the default state; and
`load` is total, returning the default record when the file is absent or
unparseable. -/
theorem C8_persist_roundtrip :
    (∀ (st : PersistedState) (b : Backing), b.pathAvailable = true →
        load (store st b) = st) ∧
    (∀ b : Backing, load (clear b) = defaultPersisted) ∧
    (∀ b : Backing, b.file = none → load b = defaultPersisted) ∧
    (∀ (b : Backing) (s : String), b.file = some s → parseState s = none →
        load b = defaultPersisted) := by
  refine ⟨?_, ?_, ?_, ?_⟩
  · intro st b h
    simp only [store, load, h, Bool.true_eq_false, if_false]
    rw [parseState_stateJson]
    rfl
  · intro b
    unfold clear load
    split_ifs <;> simp_all
  · intro b h
    unfold load
    split_ifs with h1 <;> simp [h]
  · intro b s hf hp
    unfold load
    split_ifs with h1
    · rfl
    · rw [hf]
      show (parseState s).getD defaultPersisted = defaultPersisted
      rw [hp]
      rfl

/-- Witness for C8 at a concrete state and an available backing holding
stale contents. -/
theorem C8_persist_roundtrip_witness :
    load (store ⟨some Source.Mock⟩ ⟨true, some "old"⟩) = ⟨some Source.Mock⟩ :=
  C8_persist_roundtrip.1 ⟨some Source.Mock⟩ ⟨true, some "old"⟩ rfl

end Booklid
